import Mathlib

/-!
# Gym Membership Management System — verification of the pricing engine

Shallow embedding of `src/gym_system.py` (module `gym_system`).

Modelling conventions:
* Python numbers are modelled over `ℚ`: the float literals `0.15` and `0.10`
  of the source are the exact rationals `15 / 100` and `10 / 100`, and
  Python `int(x)` (truncation toward zero) is `int_trunc`.
* Python dictionaries (`MEMBERSHIP_PLANS`, `ADDITIONAL_FEATURES`) are
  association lists looked up with `List.lookup`; both are literal,
  immutable data, so insertion-order iteration never matters here.
* `raise ValueError(msg)` / the caller's `try ... except ValueError` pair is
  `Except String`, the error value being the exact message string built by
  the source.
* The local variables of `calculate_total_cost` (`total_gross`, `surcharge`,
  `group_discount`, ...) are lifted to top-level stage functions of the
  resolved inputs (plan base cost, feature cost, premium flag, member
  count), so that theorems can speak about each stage.
-/

instance {ε α : Type} [DecidableEq ε] [DecidableEq α] : DecidableEq (Except ε α)
  | .error a, .error b =>
    if h : a = b then .isTrue (by rw [h])
    else .isFalse (by intro hh; injection hh; exact h (by assumption))
  | .error _, .ok _ => .isFalse (by intro h; cases h)
  | .ok _, .error _ => .isFalse (by intro h; cases h)
  | .ok a, .ok b =>
    if h : a = b then .isTrue (by rw [h])
    else .isFalse (by intro hh; injection hh; exact h (by assumption))

/-- One entry of the `ADDITIONAL_FEATURES` dictionary:
`{"name": ..., "cost": ..., "is_premium": ...}`. -/
structure Feature where
  name : String
  cost : ℚ
  is_premium : Bool
deriving Repr, DecidableEq

/-- `MEMBERSHIP_PLANS = {"Basic": 50, "Premium": 100, "Family": 150}`. -/
def MEMBERSHIP_PLANS : List (String × ℚ) :=
  [("Basic", 50), ("Premium", 100), ("Family", 150)]

/-- `ADDITIONAL_FEATURES`, keys `"1"`–`"4"`. -/
def ADDITIONAL_FEATURES : List (String × Feature) :=
  [("1", ⟨"Personal Training", 30, false⟩),
   ("2", ⟨"Group Classes", 20, false⟩),
   ("3", ⟨"Sauna Access", 40, true⟩),
   ("4", ⟨"Nutritional Plan", 60, true⟩)]

/-- The loop of `_get_features_details`, with the three accumulated locals
(`features_cost`, `selected_names`, `has_premium`) as explicit state.
`raise ValueError(f"Invalid feature key: {key}")` becomes the error value. -/
def get_features_details_aux (features_cost : ℚ) (selected_names : List String)
    (has_premium : Bool) : List String → Except String (ℚ × List String × Bool)
  | [] => .ok (features_cost, selected_names, has_premium)
  | key :: rest =>
    match ADDITIONAL_FEATURES.lookup key with
    | some feat =>
        get_features_details_aux (features_cost + feat.cost)
          (selected_names ++ [feat.name]) (has_premium || feat.is_premium) rest
    | none => .error ("Invalid feature key: " ++ key)

/-- `_get_features_details(selected_features_keys)`:
returns `(features_cost, selected_names, has_premium)` starting from
`0`, `[]`, `False`. -/
def get_features_details (selected_features_keys : List String) :
    Except String (ℚ × List String × Bool) :=
  get_features_details_aux 0 [] false selected_features_keys

/-- `total_gross = (base_cost + feat_cost) * num_members`. -/
def total_gross (base_cost feat_cost : ℚ) (num_members : ℤ) : ℚ :=
  (base_cost + feat_cost) * (num_members : ℚ)

/-- `surcharge = total_gross * 0.15 if has_premium else 0.0`. -/
def surcharge (base_cost feat_cost : ℚ) (has_premium : Bool) (num_members : ℤ) : ℚ :=
  if has_premium then total_gross base_cost feat_cost num_members * (15 / 100) else 0

/-- `total_after_surcharge = total_gross + surcharge`. -/
def total_after_surcharge (base_cost feat_cost : ℚ) (has_premium : Bool)
    (num_members : ℤ) : ℚ :=
  total_gross base_cost feat_cost num_members +
    surcharge base_cost feat_cost has_premium num_members

/-- `group_discount = total_after_surcharge * 0.10 if num_members >= 2 else 0.0`. -/
def group_discount (base_cost feat_cost : ℚ) (has_premium : Bool) (num_members : ℤ) : ℚ :=
  if 2 ≤ num_members then
    total_after_surcharge base_cost feat_cost has_premium num_members * (10 / 100)
  else 0

/-- `total_after_group = total_after_surcharge - group_discount`. -/
def total_after_group (base_cost feat_cost : ℚ) (has_premium : Bool)
    (num_members : ℤ) : ℚ :=
  total_after_surcharge base_cost feat_cost has_premium num_members -
    group_discount base_cost feat_cost has_premium num_members

/-- The special-offer ladder of lines 82–86:
`special_discount = 50.0 if t > 400 else (20.0 if t > 200 else 0.0)`,
as a function of the running total `t` it is evaluated on. -/
def special_discount_of (t : ℚ) : ℚ :=
  if 400 < t then 50 else if 200 < t then 20 else 0

/-- `final_total = max(0, total_after_group - special_discount)`
(the pre-truncation total). -/
def final_total (base_cost feat_cost : ℚ) (has_premium : Bool) (num_members : ℤ) : ℚ :=
  max 0 (total_after_group base_cost feat_cost has_premium num_members -
    special_discount_of (total_after_group base_cost feat_cost has_premium num_members))

/-- Python `int(x)`: truncation toward zero (discards the fractional part). -/
def int_trunc (q : ℚ) : ℤ :=
  if 0 ≤ q then ⌊q⌋ else ⌈q⌉

/-- The `details` dictionary returned by `calculate_total_cost`. -/
structure Details where
  base_total : ℚ
  surcharge : ℚ
  group_discount : ℚ
  special_discount : ℚ
  features_names : List String
deriving Repr, DecidableEq

/-- `calculate_total_cost(plan_name, selected_features_keys, num_members)`:
checks the plan, resolves the features (propagating their error), then runs
the staged pipeline and returns `(int(final_total), details)`. -/
def calculate_total_cost (plan_name : String) (selected_features_keys : List String)
    (num_members : ℤ) : Except String (ℤ × Details) :=
  match MEMBERSHIP_PLANS.lookup plan_name with
  | none => .error "Invalid membership plan."
  | some base_cost =>
    match get_features_details selected_features_keys with
    | .error e => .error e
    | .ok (feat_cost, feat_names, has_premium) =>
      .ok (int_trunc (final_total base_cost feat_cost has_premium num_members),
        { base_total := total_gross base_cost feat_cost num_members
          surcharge := surcharge base_cost feat_cost has_premium num_members
          group_discount := group_discount base_cost feat_cost has_premium num_members
          special_discount :=
            special_discount_of (total_after_group base_cost feat_cost has_premium num_members)
          features_names := feat_names })

/-- The cost a key contributes per occurrence (`0` picked for unknown keys;
only used under the assumption that the key is in the catalog). -/
def feat_cost_of (key : String) : ℚ :=
  ((ADDITIONAL_FEATURES.lookup key).map Feature.cost).getD 0

/-- The display name a key contributes per occurrence. -/
def feat_name_of (key : String) : String :=
  ((ADDITIONAL_FEATURES.lookup key).map Feature.name).getD ""

/-- The premium flag of a key. -/
def feat_premium_of (key : String) : Bool :=
  ((ADDITIONAL_FEATURES.lookup key).map Feature.is_premium).getD false

/-- A key is valid when it is present in `ADDITIONAL_FEATURES`. -/
def valid_feature_key (key : String) : Prop :=
  (ADDITIONAL_FEATURES.lookup key).isSome

instance (key : String) : Decidable (valid_feature_key key) := by
  unfold valid_feature_key; infer_instance

/-- The staged pipeline exactly as the specification words it (section 4.1,
"Algorithm"), for the purpose of the refinement claim C1. The selected
features enter as (cost, premium-flag) pairs:
`gross = (plan_base + sum of selected feature costs) * member_count`; a 15%
surcharge is added iff at least one selected feature is premium; a 10% group
discount of the post-surcharge total is subtracted iff `member_count ≥ 2`;
the flat special discount (50 above 400, else 20 above 200, else 0) is
subtracted; the zero clamp and the truncation close the pipeline. -/
def spec_staged_cost (plan_base : ℚ) (selected : List (ℚ × Bool))
    (member_count : ℤ) : ℤ :=
  let gross := (plan_base + (selected.map Prod.fst).sum) * (member_count : ℚ)
  let s := if selected.any Prod.snd then gross * (15 / 100) else 0
  let after_surcharge := gross + s
  let g := if 2 ≤ member_count then after_surcharge * (10 / 100) else 0
  let after_group := after_surcharge - g
  let sp : ℚ := if 400 < after_group then 50 else if 200 < after_group then 20 else 0
  int_trunc (max 0 (after_group - sp))

theorem lookup_plan_Basic : MEMBERSHIP_PLANS.lookup "Basic" = some 50 := rfl

theorem lookup_plan_Premium : MEMBERSHIP_PLANS.lookup "Premium" = some 100 := rfl

theorem lookup_plan_Family : MEMBERSHIP_PLANS.lookup "Family" = some 150 := rfl

theorem lookup_feat_1 : ADDITIONAL_FEATURES.lookup "1" = some ⟨"Personal Training", 30, false⟩ :=
  rfl

theorem lookup_feat_2 : ADDITIONAL_FEATURES.lookup "2" = some ⟨"Group Classes", 20, false⟩ :=
  rfl

theorem lookup_feat_3 : ADDITIONAL_FEATURES.lookup "3" = some ⟨"Sauna Access", 40, true⟩ :=
  rfl

theorem lookup_feat_4 : ADDITIONAL_FEATURES.lookup "4" = some ⟨"Nutritional Plan", 60, true⟩ :=
  rfl

theorem lookup_feat_none_9 : ADDITIONAL_FEATURES.lookup "9" = none := rfl

/-- Closed form of the `_get_features_details` loop on a list of valid keys,
for arbitrary accumulator state: the cost is summed once per occurrence, the
names are appended in the order supplied, and the premium flag is the
disjunction over occurrences. -/
theorem get_features_details_aux_ok :
    ∀ (keys : List String), (∀ k ∈ keys, valid_feature_key k) →
    ∀ (c : ℚ) (ns : List String) (p : Bool),
    get_features_details_aux c ns p keys =
      .ok (c + (keys.map feat_cost_of).sum, ns ++ keys.map feat_name_of,
        p || keys.any feat_premium_of) := by
  intro keys
  induction keys with
  | nil => intro _ c ns p; simp [get_features_details_aux]
  | cons k rest ih =>
    intro hall c ns p
    have hk : valid_feature_key k := hall k (List.mem_cons_self k rest)
    obtain ⟨f, hf⟩ := Option.isSome_iff_exists.mp hk
    have hrest : ∀ a ∈ rest, valid_feature_key a :=
      fun a ha => hall a (List.mem_cons_of_mem k ha)
    simp only [get_features_details_aux, hf]
    rw [ih hrest]
    simp only [List.map_cons, List.sum_cons, List.any_cons, feat_cost_of, feat_name_of,
      feat_premium_of, hf]
    simp [add_assoc, Bool.or_assoc]

/-- `_get_features_details` on a list of valid keys. -/
theorem get_features_details_ok (keys : List String)
    (hall : ∀ k ∈ keys, valid_feature_key k) :
    get_features_details keys =
      .ok ((keys.map feat_cost_of).sum, keys.map feat_name_of,
        keys.any feat_premium_of) := by
  rw [get_features_details, get_features_details_aux_ok keys hall]
  simp

/-- The `_get_features_details` loop raises on the first invalid key, whatever
valid keys precede it, whatever follows it, and whatever the accumulators
hold: the error message carries exactly that key. -/
theorem get_features_details_aux_err :
    ∀ (pre : List String), (∀ a ∈ pre, valid_feature_key a) →
    ∀ (k : String), ADDITIONAL_FEATURES.lookup k = none →
    ∀ (post : List String) (c : ℚ) (ns : List String) (p : Bool),
    get_features_details_aux c ns p (pre ++ k :: post) =
      .error ("Invalid feature key: " ++ k) := by
  intro pre
  induction pre with
  | nil =>
    intro _ k hk post c ns p
    simp only [List.nil_append, get_features_details_aux, hk]
  | cons a rest ih =>
    intro hall k hk post c ns p
    have ha : valid_feature_key a := hall a (List.mem_cons_self a rest)
    obtain ⟨f, hf⟩ := Option.isSome_iff_exists.mp ha
    have hrest : ∀ x ∈ rest, valid_feature_key x :=
      fun x hx => hall x (List.mem_cons_of_mem a hx)
    simp only [List.cons_append, get_features_details_aux, hf]
    exact ih hrest k hk post _ _ _

/-- `_get_features_details` on a list whose first invalid key is `k`. -/
theorem get_features_details_err (pre : List String)
    (hpre : ∀ a ∈ pre, valid_feature_key a) (k : String)
    (hk : ADDITIONAL_FEATURES.lookup k = none) (post : List String) :
    get_features_details (pre ++ k :: post) = .error ("Invalid feature key: " ++ k) :=
  get_features_details_aux_err pre hpre k hk post 0 [] false

/-- Run lemma: on a catalog plan and successfully resolved features,
`calculate_total_cost` returns the truncated `final_total` and the breakdown
built from the stage functions. -/
theorem calculate_total_cost_ok (plan_name : String) (keys : List String)
    (num_members : ℤ) (base_cost : ℚ)
    (hb : MEMBERSHIP_PLANS.lookup plan_name = some base_cost)
    (feat_cost : ℚ) (feat_names : List String) (has_premium : Bool)
    (hf : get_features_details keys = .ok (feat_cost, feat_names, has_premium)) :
    calculate_total_cost plan_name keys num_members =
      .ok (int_trunc (final_total base_cost feat_cost has_premium num_members),
        { base_total := total_gross base_cost feat_cost num_members
          surcharge := surcharge base_cost feat_cost has_premium num_members
          group_discount := group_discount base_cost feat_cost has_premium num_members
          special_discount :=
            special_discount_of (total_after_group base_cost feat_cost has_premium num_members)
          features_names := feat_names }) := by
  simp only [calculate_total_cost, hb, hf]

/-- `calculate_total_cost` on a plan absent from the catalog: the very first
check fails, before features are even looked at. -/
theorem calculate_total_cost_bad_plan (plan_name : String)
    (hb : MEMBERSHIP_PLANS.lookup plan_name = none) (keys : List String)
    (num_members : ℤ) :
    calculate_total_cost plan_name keys num_members = .error "Invalid membership plan." := by
  simp only [calculate_total_cost, hb]

/-- `calculate_total_cost` propagates the invalid-feature-key error untouched. -/
theorem calculate_total_cost_bad_feature (plan_name : String) (base_cost : ℚ)
    (hb : MEMBERSHIP_PLANS.lookup plan_name = some base_cost)
    (keys : List String) (e : String)
    (hf : get_features_details keys = .error e) (num_members : ℤ) :
    calculate_total_cost plan_name keys num_members = .error e := by
  simp only [calculate_total_cost, hb, hf]

/-- Every base price in the plan catalog is nonnegative. -/
theorem lookup_plan_nonneg (p : String) (b : ℚ)
    (h : MEMBERSHIP_PLANS.lookup p = some b) : 0 ≤ b := by
  simp only [MEMBERSHIP_PLANS, List.lookup] at h
  repeat' split at h
  all_goals cases h
  all_goals norm_num

/-- Every feature in the catalog has nonnegative cost. -/
theorem lookup_feature_cost_nonneg (k : String) (f : Feature)
    (h : ADDITIONAL_FEATURES.lookup k = some f) : 0 ≤ f.cost := by
  simp only [ADDITIONAL_FEATURES, List.lookup] at h
  repeat' split at h
  all_goals cases h
  all_goals norm_num

theorem feat_cost_of_nonneg (k : String) : 0 ≤ feat_cost_of k := by
  rw [feat_cost_of]
  cases h : ADDITIONAL_FEATURES.lookup k with
  | none => simp
  | some f => simpa using lookup_feature_cost_nonneg k f h

theorem final_total_nonneg (b fc : ℚ) (hp : Bool) (m : ℤ) : 0 ≤ final_total b fc hp m :=
  le_max_left 0 _

theorem int_trunc_of_nonneg (q : ℚ) (hq : 0 ≤ q) : int_trunc q = ⌊q⌋ := by
  rw [int_trunc, if_pos hq]

theorem int_trunc_nonneg (q : ℚ) (hq : 0 ≤ q) : 0 ≤ int_trunc q := by
  rw [int_trunc_of_nonneg q hq]
  exact Int.floor_nonneg.mpr hq

theorem special_discount_of_nonpos (t : ℚ) (ht : t ≤ 0) : special_discount_of t = 0 := by
  rw [special_discount_of, if_neg (by linarith), if_neg (by linarith)]

/-- With a nonpositive member count the whole running total stays
nonpositive: the gross total is nonpositive, the surcharge only scales it,
and the group discount cannot trigger. -/
theorem after_group_nonpos (b fc : ℚ) (hb : 0 ≤ b) (hfc : 0 ≤ fc) (hp : Bool)
    (m : ℤ) (hm : m ≤ 0) : total_after_group b fc hp m ≤ 0 := by
  have hmq : (m : ℚ) ≤ 0 := by exact_mod_cast hm
  have hg : total_gross b fc m ≤ 0 := by
    rw [total_gross]
    exact mul_nonpos_iff.mpr (Or.inl ⟨by linarith, hmq⟩)
  have hs : surcharge b fc hp m ≤ 0 := by
    cases hp with
    | false => simp [surcharge]
    | true =>
      rw [surcharge, if_pos rfl]
      exact mul_nonpos_iff.mpr (Or.inr ⟨hg, by norm_num⟩)
  have hgd : group_discount b fc hp m = 0 := by
    rw [group_discount, if_neg (by omega)]
  rw [total_after_group, hgd, total_after_surcharge, sub_zero]
  linarith

theorem final_total_of_nonpos (b fc : ℚ) (hb : 0 ≤ b) (hfc : 0 ≤ fc) (hp : Bool)
    (m : ℤ) (hm : m ≤ 0) : final_total b fc hp m = 0 := by
  have ht := after_group_nonpos b fc hb hfc hp m hm
  rw [final_total, special_discount_of_nonpos _ ht, sub_zero]
  exact max_eq_left ht

theorem int_trunc_zero : int_trunc 0 = 0 := by
  rw [int_trunc, if_pos le_rfl]
  exact Int.floor_zero

theorem map_fst_pairs (keys : List String) :
    (keys.map fun k => (feat_cost_of k, feat_premium_of k)).map Prod.fst =
      keys.map feat_cost_of := by
  simp

theorem any_snd_pairs (keys : List String) :
    (keys.map fun k => (feat_cost_of k, feat_premium_of k)).any Prod.snd =
      keys.any feat_premium_of := by
  induction keys with
  | nil => rfl
  | cons a l ih => simp only [List.map_cons, List.any_cons, ih]

/-- C1: on every catalog plan, list of valid feature keys and member count
≥ 1, `calculate_total_cost` computes its cost by exactly the staged pipeline
of the specification, stage feeding stage in the given order. -/
theorem claim_C1_staged_pipeline (plan_name : String) (base_cost : ℚ)
    (hb : MEMBERSHIP_PLANS.lookup plan_name = some base_cost)
    (keys : List String) (hall : ∀ k ∈ keys, valid_feature_key k)
    (member_count : ℤ) (hm : 1 ≤ member_count) :
    (calculate_total_cost plan_name keys member_count).map Prod.fst =
      .ok (spec_staged_cost base_cost
        (keys.map fun k => (feat_cost_of k, feat_premium_of k)) member_count) := by
  have h1 := map_fst_pairs keys
  have h2 := any_snd_pairs keys
  rw [calculate_total_cost_ok plan_name keys member_count base_cost hb _ _ _
    (get_features_details_ok keys hall)]
  simp only [Except.map, spec_staged_cost, h1, h2, final_total, total_after_group,
    total_after_surcharge, group_discount, surcharge, total_gross, special_discount_of]

/-- Witness for C1 at ("Family", ["1"], 2). -/
theorem claim_C1_staged_pipeline_witness :
    (calculate_total_cost "Family" ["1"] 2).map Prod.fst =
      .ok (spec_staged_cost 150 (["1"].map fun k => (feat_cost_of k, feat_premium_of k)) 2) :=
  claim_C1_staged_pipeline "Family" 150 rfl ["1"] (by intro k hk; fin_cases hk <;> rfl) 2
    (by norm_num)

/-- C2: `calculate_total_cost` returns exactly the seven specified concrete
costs on the catalog of the source: ("Basic", [], 1) ↦ 50,
("Premium", ["2"], 1) ↦ 120, ("Basic", [], 2) ↦ 90, ("Basic", ["3"], 1) ↦ 103,
("Family", [], 2) ↦ 250, ("Family", [], 4) ↦ 490, ("Premium", ["4"], 2) ↦ 311. -/
theorem claim_C2_concrete_scenarios :
    (calculate_total_cost "Basic" [] 1).map Prod.fst = .ok 50 ∧
    (calculate_total_cost "Premium" ["2"] 1).map Prod.fst = .ok 120 ∧
    (calculate_total_cost "Basic" [] 2).map Prod.fst = .ok 90 ∧
    (calculate_total_cost "Basic" ["3"] 1).map Prod.fst = .ok 103 ∧
    (calculate_total_cost "Family" [] 2).map Prod.fst = .ok 250 ∧
    (calculate_total_cost "Family" [] 4).map Prod.fst = .ok 490 ∧
    (calculate_total_cost "Premium" ["4"] 2).map Prod.fst = .ok 311 := by
  refine ⟨?_, ?_, ?_, ?_, ?_, ?_, ?_⟩ <;>
    norm_num [calculate_total_cost, get_features_details, get_features_details_aux,
      Except.map, lookup_plan_Basic, lookup_plan_Premium, lookup_plan_Family,
      lookup_feat_2, lookup_feat_3, lookup_feat_4,
      total_gross, surcharge, total_after_surcharge, group_discount,
      total_after_group, special_discount_of, final_total, int_trunc]

/-- C3: on every catalog plan and valid feature selection, the returned cost
is the floor of the (always nonnegative) pre-truncation total — the integer
part, with the fractional part discarded. In particular at
("Basic", ["3"], 1) the pre-truncation total is 103.5, the returned cost is
its integer part 103, and rounding to nearest (104) is what the code does
not do. -/
theorem claim_C3_truncation_not_rounding (plan_name : String) (base_cost : ℚ)
    (hb : MEMBERSHIP_PLANS.lookup plan_name = some base_cost)
    (keys : List String) (hall : ∀ k ∈ keys, valid_feature_key k)
    (member_count : ℤ) :
    ((calculate_total_cost plan_name keys member_count).map Prod.fst =
      .ok ⌊final_total base_cost ((keys.map feat_cost_of).sum)
        (keys.any feat_premium_of) member_count⌋) ∧
    (calculate_total_cost "Basic" ["3"] 1).map Prod.fst = .ok 103 ∧
    final_total 50 40 true 1 = 207 / 2 ∧
    round ((207 : ℚ) / 2) = 104 := by
  refine ⟨?_, ?_, ?_, ?_⟩
  · rw [calculate_total_cost_ok plan_name keys member_count base_cost hb _ _ _
      (get_features_details_ok keys hall)]
    simp only [Except.map]
    rw [int_trunc_of_nonneg _ (final_total_nonneg _ _ _ _)]
  · norm_num [calculate_total_cost, get_features_details, get_features_details_aux,
      Except.map, lookup_plan_Basic, lookup_feat_3, total_gross, surcharge,
      total_after_surcharge, group_discount, total_after_group, special_discount_of,
      final_total, int_trunc]
  · norm_num [final_total, total_after_group, total_after_surcharge, group_discount,
      surcharge, total_gross, special_discount_of]
  · rw [round_eq]
    norm_num

/-- Witness for C3 at ("Basic", ["3"], 1). -/
theorem claim_C3_truncation_not_rounding_witness :
    (calculate_total_cost "Basic" ["3"] 1).map Prod.fst =
      .ok ⌊final_total 50 ((["3"].map feat_cost_of).sum) (["3"].any feat_premium_of) 1⌋ :=
  (claim_C3_truncation_not_rounding "Basic" 50 rfl ["3"]
    (by intro k hk; fin_cases hk <;> rfl) 1).1

/-- C4: the special discount the breakdown reports is exactly the strict
threshold ladder evaluated on the post-group-discount total; the three tiers
{50, 20, 0} partition the line at the strict thresholds 400 and 200, and at
the boundary values the lower tier wins: 20 at exactly 400, 0 at exactly
200. -/
theorem claim_C4_special_discount_tiers (plan_name : String) (base_cost : ℚ)
    (hb : MEMBERSHIP_PLANS.lookup plan_name = some base_cost)
    (keys : List String) (hall : ∀ k ∈ keys, valid_feature_key k)
    (member_count : ℤ) :
    (∀ (c : ℤ) (d : Details),
      calculate_total_cost plan_name keys member_count = .ok (c, d) →
      d.special_discount = special_discount_of (total_after_group base_cost
        ((keys.map feat_cost_of).sum) (keys.any feat_premium_of) member_count)) ∧
    (∀ t : ℚ, 400 < t → special_discount_of t = 50) ∧
    (∀ t : ℚ, t ≤ 400 → 200 < t → special_discount_of t = 20) ∧
    (∀ t : ℚ, t ≤ 200 → special_discount_of t = 0) ∧
    special_discount_of 400 = 20 ∧
    special_discount_of 200 = 0 := by
  refine ⟨?_, ?_, ?_, ?_, ?_, ?_⟩
  · intro c d h
    rw [calculate_total_cost_ok plan_name keys member_count base_cost hb _ _ _
      (get_features_details_ok keys hall)] at h
    simp only [Except.ok.injEq, Prod.mk.injEq] at h
    rw [← h.2]
  · intro t ht
    rw [special_discount_of, if_pos ht]
  · intro t ht1 ht2
    rw [special_discount_of, if_neg (by linarith), if_pos ht2]
  · intro t ht
    rw [special_discount_of, if_neg (by linarith), if_neg (by linarith)]
  · norm_num [special_discount_of]
  · norm_num [special_discount_of]

/-- Witness for C4: the boundary facts, extracted through the theorem at a
concrete valid input. -/
theorem claim_C4_special_discount_tiers_witness :
    special_discount_of 400 = 20 ∧ special_discount_of 200 = 0 :=
  ⟨(claim_C4_special_discount_tiers "Basic" 50 rfl [] (by simp) 1).2.2.2.2.1,
   (claim_C4_special_discount_tiers "Basic" 50 rfl [] (by simp) 1).2.2.2.2.2⟩

/-- C5: for every plan name absent from the plan catalog, and all feature
keys (valid or not) and member counts whatsoever, `calculate_total_cost`
fails with the invalid-plan error; no features are resolved and no
breakdown is produced (the result carries only the error message). -/
theorem claim_C5_unknown_plan (plan_name : String)
    (hb : MEMBERSHIP_PLANS.lookup plan_name = none)
    (feature_keys : List String) (member_count : ℤ) :
    calculate_total_cost plan_name feature_keys member_count =
      .error "Invalid membership plan." :=
  calculate_total_cost_bad_plan plan_name hb feature_keys member_count

/-- Witness for C5: the plan "NonExistent" fails with the invalid-plan
error even though the feature list also contains the invalid key "9". -/
theorem claim_C5_unknown_plan_witness :
    calculate_total_cost "NonExistent" ["9"] 1 = .error "Invalid membership plan." :=
  claim_C5_unknown_plan "NonExistent" rfl ["9"] 1

/-- C6: for every catalog plan and every feature-key list whose first
unknown key is `k` (all keys before `k` valid, anything after it), the call
fails with the invalid-feature-key error naming exactly `k`, and returns no
breakdown. -/
theorem claim_C6_unknown_feature_key (plan_name : String) (base_cost : ℚ)
    (hb : MEMBERSHIP_PLANS.lookup plan_name = some base_cost)
    (pre : List String) (hpre : ∀ a ∈ pre, valid_feature_key a)
    (k : String) (hk : ADDITIONAL_FEATURES.lookup k = none)
    (post : List String) (member_count : ℤ) :
    calculate_total_cost plan_name (pre ++ k :: post) member_count =
      .error ("Invalid feature key: " ++ k) :=
  calculate_total_cost_bad_feature plan_name base_cost hb (pre ++ k :: post)
    ("Invalid feature key: " ++ k) (get_features_details_err pre hpre k hk post)
    member_count

/-- Witness for C6: in ["1", "9", "2"] the keys "1" and "2" are valid, yet
the call fails naming the unknown key "9". -/
theorem claim_C6_unknown_feature_key_witness :
    calculate_total_cost "Basic" (["1"] ++ "9" :: ["2"]) 1 =
      .error ("Invalid feature key: " ++ "9") :=
  claim_C6_unknown_feature_key "Basic" 50 rfl ["1"] (by decide) "9" rfl ["2"] 1

/-- C7: the two failure conditions are distinguishable: the invalid-plan
message never coincides with an invalid-feature-key message (whatever the
offending key), and both are actually produced by `calculate_total_cost`. -/
theorem claim_C7_distinguishable_errors :
    (∀ k : String, "Invalid membership plan." ≠ "Invalid feature key: " ++ k) ∧
    calculate_total_cost "NonExistent" [] 1 = .error "Invalid membership plan." ∧
    calculate_total_cost "Basic" ["7"] 1 = .error ("Invalid feature key: " ++ "7") := by
  refine ⟨fun k h => ?_, rfl, ?_⟩
  · have hd := congrArg String.data h
    rw [String.data_append] at hd
    have h9 := congrArg (List.take 9) hd
    rw [List.take_append_eq_append_take] at h9
    simp at h9
  · exact calculate_total_cost_bad_feature "Basic" 50 lookup_plan_Basic ["7"]
      ("Invalid feature key: " ++ "7") (get_features_details_err [] (by simp) "7" rfl []) 1

/-- C8: for every catalog plan, valid feature selection and member count
at least 1, the cost returned by `calculate_total_cost` is nonnegative
(the `max(0, ...)` clamp before truncation). -/
theorem claim_C8_final_cost_nonneg (plan_name : String) (base_cost : ℚ)
    (hb : MEMBERSHIP_PLANS.lookup plan_name = some base_cost)
    (keys : List String) (hall : ∀ k ∈ keys, valid_feature_key k)
    (member_count : ℤ) (hm : 1 ≤ member_count) (c : ℤ) (d : Details)
    (h : calculate_total_cost plan_name keys member_count = .ok (c, d)) : 0 ≤ c := by
  rw [calculate_total_cost_ok plan_name keys member_count base_cost hb _ _ _
    (get_features_details_ok keys hall)] at h
  simp only [Except.ok.injEq, Prod.mk.injEq] at h
  rw [← h.1]
  exact int_trunc_nonneg _ (final_total_nonneg _ _ _ _)

/-- Witness for C8 at ("Basic", [], 1), whose cost is 50. -/
theorem claim_C8_final_cost_nonneg_witness : (0 : ℤ) ≤ 50 :=
  claim_C8_final_cost_nonneg "Basic" 50 rfl [] (by simp) 1 (by norm_num) 50
    ⟨50, 0, 0, 0, []⟩
    (by norm_num [calculate_total_cost, get_features_details, get_features_details_aux,
      lookup_plan_Basic, total_gross, surcharge, total_after_surcharge, group_discount,
      total_after_group, special_discount_of, final_total, int_trunc])

/-- C9: duplicate keys are neither rejected nor deduplicated: on any list of
valid keys (duplicates included) the resolution succeeds, the cost is the sum
of one cost per occurrence, and the name list has one name per occurrence,
in the order the keys were supplied. -/
theorem claim_C9_duplicates_summed (keys : List String)
    (hall : ∀ k ∈ keys, valid_feature_key k) :
    get_features_details keys =
      .ok ((keys.map feat_cost_of).sum, keys.map feat_name_of,
        keys.any feat_premium_of) ∧
    (keys.map feat_name_of).length = keys.length :=
  ⟨get_features_details_ok keys hall, keys.length_map feat_name_of⟩

/-- Witness for C9: the key "2" supplied three times contributes its cost
`20` three times (total 60) and its name three times. -/
theorem claim_C9_duplicates_summed_witness :
    get_features_details ["2", "2", "2"] =
      .ok (60, ["Group Classes", "Group Classes", "Group Classes"], false) := by
  have h := claim_C9_duplicates_summed ["2", "2", "2"]
    (by intro k hk; fin_cases hk <;> rfl)
  rw [h.1]
  norm_num [feat_cost_of, feat_name_of, feat_premium_of, lookup_feat_2]

/-- C10: for every catalog plan, valid feature selection and member count
≤ 0, the call still succeeds and the returned cost is exactly 0: the gross
total is nonpositive, no group or special discount triggers, and the zero
clamp absorbs the rest. -/
theorem claim_C10_nonpos_members_cost_zero (plan_name : String) (base_cost : ℚ)
    (hb : MEMBERSHIP_PLANS.lookup plan_name = some base_cost)
    (keys : List String) (hall : ∀ k ∈ keys, valid_feature_key k)
    (member_count : ℤ) (hm : member_count ≤ 0) :
    (calculate_total_cost plan_name keys member_count).map Prod.fst = .ok 0 := by
  have hfc : 0 ≤ (keys.map feat_cost_of).sum := by
    apply List.sum_nonneg
    intro x hx
    obtain ⟨k, _, rfl⟩ := List.mem_map.mp hx
    exact feat_cost_of_nonneg k
  rw [calculate_total_cost_ok plan_name keys member_count base_cost hb _ _ _
    (get_features_details_ok keys hall)]
  rw [final_total_of_nonpos base_cost _ (lookup_plan_nonneg plan_name base_cost hb) hfc
    _ member_count hm, int_trunc_zero]
  rfl

/-- Witness for C10 at ("Basic", [], 0): the cost is 0. -/
theorem claim_C10_nonpos_members_cost_zero_witness :
    (calculate_total_cost "Basic" [] 0).map Prod.fst = .ok 0 :=
  claim_C10_nonpos_members_cost_zero "Basic" 50 rfl [] (by simp) 0 le_rfl
